import Mathlib

/-!
# Verification of the pptx-parser slide pipeline

A shallow embedding, in Lean 4, of the slide data model and the operations of
the `pptx-parser` Rust crate (`src/types.rs`, `src/slide.rs`, `src/parse_xml.rs`,
`src/parser_config.rs`), together with theorems settling the specification
claims about them.

Modelling conventions:
* Rust `String` / `&str` is Lean `String`; byte buffers (`Vec<u8>`) are `List Nat`
  (each entry < 256 where it matters, e.g. in the base64 encoder which reduces
  mod 256 implicitly through `%`/`/` arithmetic on the 8-bit quantities).
* `u32` / `usize` counters are `Nat`; the OOXML coordinates (`i64`) are `Int`.
* Fallible Rust functions returning `Option` / `Result` become `Option` /
  `Except Error`.
* `HashMap<String, _>` values built by `collect()` from a list of pairs are
  modelled by last-occurrence-wins association-list lookup (`lookupLast`),
  matching `HashMap::from_iter` insert-overwrite semantics; lookups into
  `Slide.image_data` (whose keys are unique) use first-match lookup.
* The external image crate (`image::load_from_memory` + JPEG re-encoding used
  by `Slide::compress_image`) and the filesystem (`canonicalize` used by
  `Slide::path_to_file_url`) are black-box collaborators; they are supplied as
  an explicit environment (`RenderEnv`).
-/

namespace PptxParser

/-- `types.rs`: `ElementPosition { x: i64, y: i64 }`, `Default` is `(0, 0)`. -/
structure ElementPosition where
  x : Int
  y : Int
deriving DecidableEq, Repr

def ElementPosition.default : ElementPosition := ⟨0, 0⟩

/-- `types.rs`: `Formatting` run-styling flags (`Default` = all false / empty). -/
structure Formatting where
  bold : Bool
  italic : Bool
  underlined : Bool
  lang : String
deriving DecidableEq, Repr

def Formatting.default : Formatting := ⟨false, false, false, ""⟩

/-- `types.rs`: `Run { text, formatting }`. -/
structure Run where
  text : String
  formatting : Formatting
deriving DecidableEq, Repr

structure TextElement where
  runs : List Run
deriving DecidableEq, Repr

structure TableCell where
  runs : List Run
deriving DecidableEq, Repr

structure TableRow where
  cells : List TableCell
deriving DecidableEq, Repr

structure TableElement where
  rows : List TableRow
deriving DecidableEq, Repr

/-- `types.rs`: `ListItem { level: u32, is_ordered: bool, runs }`. -/
structure ListItem where
  level : Nat
  is_ordered : Bool
  runs : List Run
deriving DecidableEq, Repr

structure ListElement where
  items : List ListItem
deriving DecidableEq, Repr

/-- `types.rs`: `ImageReference { id, target }`. -/
structure ImageReference where
  id : String
  target : String
deriving DecidableEq, Repr

/-- `types.rs`: the `SlideElement` tagged union. -/
inductive SlideElement where
  | Text (t : TextElement) (pos : ElementPosition)
  | Table (t : TableElement) (pos : ElementPosition)
  | Image (r : ImageReference) (pos : ElementPosition)
  | List (l : ListElement) (pos : ElementPosition)
  | Unknown
deriving DecidableEq, Repr

/-- `types.rs`: `SlideElement::position` (Unknown falls back to the default). -/
def SlideElement.position : SlideElement → ElementPosition
  | .Text _ pos => pos
  | .Table _ pos => pos
  | .Image _ pos => pos
  | .List _ pos => pos
  | .Unknown => ElementPosition.default

/-- `parser_config.rs`: `ImageHandlingMode`. -/
inductive ImageHandlingMode where
  | InMarkdown
  | Manually
  | Save
deriving DecidableEq, Repr

/-- `parser_config.rs`: `ParserConfig`.  The field `include_slide_comment` is
read by `Slide::convert_to_md` but its declaration is not among the source
files; it is modelled from the spec (§3): `include_slide_comment: bool`. -/
structure ParserConfig where
  extract_images : Bool
  compress_images : Bool
  quality : Nat
  image_handling_mode : ImageHandlingMode
  image_output_path : Option String
  include_slide_comment : Bool
deriving DecidableEq, Repr

/-- `slide.rs`: the `Slide` aggregate. `image_data: HashMap<String, Vec<u8>>`
is modelled as an association list with unique-key first-match lookup. -/
structure Slide where
  rel_path : String
  slide_number : Nat
  elements : List SlideElement
  images : List ImageReference
  image_data : List (String × List Nat)
  config : ParserConfig

/-- `lib.rs`: the crate's `Error` enum (variants carrying library payloads are
collapsed to bare constructors; only the discriminant matters here). -/
inductive Error where
  | Zip
  | Xml
  | Utf8
  | SlideNotFound
  | Io
  | ParseError (msg : String)
  | ImageNotFound
  | RelationshipNotFound
  | ConversionFailed
  | MultiThreadedConversionFailed
  | Unknown
deriving DecidableEq, Repr

/-! ## String and collection helpers mirroring the Rust library functions -/

/-- First-match association lookup: `HashMap::get` for maps with unique keys
(`Slide.image_data`). -/
def lookupFirst (ps : List (String × List Nat)) (k : String) : Option (List Nat) :=
  (ps.find? (fun p => p.1 == k)).map (·.2)

/-- Last-occurrence-wins lookup: the result of `HashMap::from_iter` insertion
(`collect()` in `Slide::link_images`, where a later pair overwrites an
earlier one with the same key) followed by `get`. -/
def lookupLast (ps : List (String × String)) (k : String) : Option String :=
  ps.foldl (fun acc p => if p.1 == k then some p.2 else acc) none

/-- Rust `str::split(c)` on the underlying character list: always returns at
least one (possibly empty) piece. -/
def splitCharList (c : Char) : List Char → List (List Char)
  | [] => [[]]
  | d :: rest =>
    let r := splitCharList c rest
    if d = c then [] :: r
    else match r with
      | [] => [[d]]
      | h :: t => (d :: h) :: t

/-- Rust `str::split(c)` producing strings. -/
def rustSplit (c : Char) (s : String) : List String :=
  (splitCharList c s.data).map (fun l => String.mk l)

/-- Rust `String::replace('\n', "")`: removes every newline character. -/
def removeNewlines (s : String) : String :=
  String.mk (s.data.filter (fun c => c ≠ '\n'))

/-- Rust `str::ends_with("\n")` for the single-character pattern. -/
def endsWithNewline (s : String) : Bool :=
  s.data.getLast? == some '\n'

/-- `types.rs`: `Run::extract` (returns the run's text). -/
def Run.extract (r : Run) : String := r.text

/-- The inline-markup block of `Run::render_as_md` (`types.rs` lines 71-84):
emphasis from the bold/italic flags, then the underline tag. -/
def applyMarkup (f : Formatting) (result : String) : String :=
  let result :=
    if f.bold && f.italic then "***" ++ result ++ "***"
    else
      let result := if f.bold then "**" ++ result ++ "**" else result
      let result := if f.italic then "_" ++ result ++ "_" else result
      result
  if f.underlined then "<u>" ++ result ++ "</u>" else result

/-- `types.rs`: `Run::render_as_md`. If the text ends with a newline the code
removes every `'\n'` (via `replace('\n', "")`), applies the emphasis /
underline markup, and re-appends a single `'\n'` at the very end. -/
def Run.render_as_md (r : Run) : String :=
  let has_new_line := endsWithNewline r.text
  let result := r.extract
  let result := if has_new_line then removeNewlines result else result
  let result := applyMarkup r.formatting result
  if has_new_line then result ++ "\n" else result

/-! ## `Slide::link_images` -/

/-- The `id → target` map of `Slide::link_images`, built by
`self.images.iter().map(|r| (r.id, r.target)).collect::<HashMap<_,_>>()`. -/
def idToTarget (images : List ImageReference) (id : String) : Option String :=
  lookupLast (images.map (fun r => (r.id, r.target))) id

/-- The per-element rewrite of the `for element in &mut self.elements` loop in
`Slide::link_images`. -/
def linkElement (images : List ImageReference) : SlideElement → SlideElement
  | .Image r pos =>
    match idToTarget images r.id with
    | some t => .Image { r with target := t } pos
    | none => .Image r pos
  | e => e

/-- `slide.rs`: `Slide::link_images` (in-place mutation modelled as returning
the updated slide). -/
def Slide.link_images (s : Slide) : Slide :=
  { s with elements := s.elements.map (linkElement s.images) }

/-! ## Sorting by position

`Slide::convert_to_md` begins with
`sorted_elements.sort_by_key(|e| { let ElementPosition { y, x } = e.position(); (y, x) })`.
Rust's `sort_by_key` is a *stable* sort by the key `(y, x)` in lexicographic
order.  A stable sort is extensionally unique, so we model it by a stable
insertion sort and prove the sortedness/stability properties the claims use. -/

/-- The sort key of an element: `(y, x)`. -/
def posKey (e : SlideElement) : Int × Int :=
  (e.position.y, e.position.x)

/-- Lexicographic `≤` on sort keys (the total preorder `sort_by_key` uses). -/
def keyLe (a b : Int × Int) : Bool :=
  a.1 < b.1 || (a.1 == b.1 && a.2 ≤ b.2)

/-- Strict lexicographic `<` on sort keys. -/
def keyLt (a b : Int × Int) : Bool :=
  a.1 < b.1 || (a.1 == b.1 && a.2 < b.2)

/-- The element ordering `sort_by_key` sorts by. -/
def elemLe (a b : SlideElement) : Prop :=
  keyLe (posKey a) (posKey b) = true

instance : DecidableRel elemLe := fun _ _ => inferInstanceAs (Decidable (_ = true))

/-- The stable sort of the element list (model of `sort_by_key` on `(y, x)`):
stable insertion sort.  A stable sort is extensionally unique (pinned down
below by sortedness, permutation and tie-stability), so this is the behaviour
of Rust's `sort_by_key`. -/
def sortElements (l : List SlideElement) : List SlideElement :=
  l.insertionSort elemLe

/-! ## Markdown rendering helpers -/

/-- The standard base64 alphabet used by `base64::engine::general_purpose::STANDARD`. -/
def b64Char (n : Nat) : Char :=
  "ABCDEFGHIJKLMNOPQRSTUVWXYZabcdefghijklmnopqrstuvwxyz0123456789+/".data.getD n 'A'

/-- Standard base64 with `=` padding (`general_purpose::STANDARD.encode`). -/
def base64Encode : List Nat → String
  | [] => ""
  | [b1] =>
    String.mk [b64Char (b1 / 4), b64Char (b1 % 4 * 16)] ++ "=="
  | [b1, b2] =>
    String.mk [b64Char (b1 / 4), b64Char (b1 % 4 * 16 + b2 / 16), b64Char (b2 % 16 * 4)] ++ "="
  | b1 :: b2 :: b3 :: rest =>
    String.mk [b64Char (b1 / 4), b64Char (b1 % 4 * 16 + b2 / 16),
               b64Char (b2 % 16 * 4 + b3 / 64), b64Char (b3 % 64)] ++ base64Encode rest

/-- `slide.rs`: `Slide::get_image_extension` — `Path::new(path).extension()`
with fallback `"bin"`.  `Path::extension` looks at the final path component
and yields the part after its last `'.'`, unless there is no `'.'` or the only
`'.'` is the leading character of a hidden file. -/
def get_image_extension (path : String) : String :=
  let fname := (rustSplit '/' path).getLastD ""
  match (rustSplit '.' fname).reverse with
  | ext :: rest =>
    -- `rest` holds the stem pieces; `Path::extension` is `none` when the
    -- file name has no dot, or when the name is exactly `.ext` (hidden file).
    if rest.isEmpty then "bin"
    else if rest.reverse.headD "" = "" && rest.length = 1 then "bin"
    else ext
  | [] => "bin"

/-- Debug-quoting of a string, modelling Rust's `{:?}` format for `String`
(quotation marks around the text, with backslash escapes for quotes,
backslashes and the common control characters). -/
def debugQuote (s : String) : String :=
  "\"" ++ String.join (s.data.map (fun c =>
    if c = '"' then "\\\""
    else if c = '\\' then "\\\\"
    else if c = '\n' then "\\n"
    else if c = '\t' then "\\t"
    else if c = '\r' then "\\r"
    else String.mk [c])) ++ "\""

/-- The black-box collaborators of the renderer:
`transcode` models the external `image` crate pipeline used by
`Slide::compress_image` (`load_from_memory` + JPEG encode at a quality:
raw bytes → JPEG bytes, or failure), and `canonicalize` models
`std::fs::canonicalize` in `Slide::path_to_file_url`.  `fs::create_dir_all`
and `fs::write` have their results discarded by the code (`let _ = ...`), so
they need no model. -/
structure RenderEnv where
  transcode : List Nat → Nat → Option (List Nat)
  canonicalize : String → Option String

/-- `slide.rs`: `Slide::compress_image` — delegates to the black-box image
transcoder at the configured quality. -/
def Slide.compress_image (env : RenderEnv) (s : Slide) (image_data : List Nat) :
    Option (List Nat) :=
  env.transcode image_data s.config.quality

/-- `slide.rs`: `Slide::path_to_file_url` on a non-Windows host: canonicalize,
replace `'\\'` by `'/'`, prefix `file://`. -/
def path_to_file_url (env : RenderEnv) (path : String) : Option String := do
  let abs ← env.canonicalize path
  let path_str := String.mk (abs.data.map (fun c => if c = '\\' then '/' else c))
  pure ("file://" ++ path_str)

/-- One row of the `SlideElement::Table` arm: `"| " ++ join " | " ++ " |"`,
plus the `--- ` separator line after the header row. -/
def renderTableRows : Bool → List TableRow → String
  | _, [] => ""
  | is_header, row :: rest =>
    let row_texts := row.cells.map (fun cell => String.join (cell.runs.map Run.extract))
    let row_line := "| " ++ String.intercalate " | " row_texts ++ " |"
    let sep := if is_header
      then "|" ++ String.intercalate "|" (row_texts.map (fun _ => " --- ")) ++ "|" ++ "\n"
      else ""
    row_line ++ "\n" ++ sep ++ renderTableRows false rest

/-- The whole `SlideElement::Table` arm (trailing blank line included). -/
def renderTable (t : TableElement) : String :=
  renderTableRows true t.rows ++ "\n"

/-- The text of one list item: concatenation of its runs' `extract`. -/
def listItemText (item : ListItem) : String :=
  String.join (item.runs.map Run.extract)

/-- One iteration of the `SlideElement::List` loop: counter maintenance
(`resize`, `cmp` on the levels, post-increment) and marker construction.
State is `(counters, previous_level)`; the returned string is the line pushed
for this item. -/
def listStep (st : List Nat × Nat) (item : ListItem) : (List Nat × Nat) × String :=
  let (counters, previous_level) := st
  let level := item.level
  let counters :=
    if counters.length ≤ level then counters ++ List.replicate (level + 1 - counters.length) 0
    else counters
  let counters :=
    if previous_level < level then counters.set level 0
    else if level < previous_level then counters.take (level + 1)
    else counters
  let counters := counters.set level (counters.getD level 0 + 1)
  let indent := String.mk (List.replicate level '\t')
  let marker :=
    if item.is_ordered then indent ++ toString (counters.getD level 0) ++ ". "
    else indent ++ "- "
  ((counters, level), marker ++ listItemText item ++ "\n")

/-- The `SlideElement::List` arm: fold `listStep` over the items, starting
from empty counters and `previous_level = 0`, concatenating the lines. -/
def renderList (items : List ListItem) : String :=
  (items.foldl (fun acc item =>
    let (st, line) := listStep acc.1 item
    (st, acc.2 ++ line)) (([], 0), "")).2

/-- The `SlideElement::Image` arm of `Slide::convert_to_md`.  Returns the text
pushed for this element together with the updated `image_count`, or `none`
when one of the `?` operators in the arm aborts the whole conversion.
Note that every mode falls through to the final `slide_txt.push('\n')`
(line 165); `Manually` instead pushes its own `'\n'` and `continue`s. -/
def imageChunk (env : RenderEnv) (s : Slide) (image_count : Nat)
    (image_ref : ImageReference) : Option (String × Nat) :=
  match s.config.image_handling_mode with
  | .InMarkdown =>
    match lookupFirst s.image_data image_ref.id with
    | none => some ("\n", image_count)
    | some data => do
      let bytes ← if s.config.compress_images then Slide.compress_image env s data
                  else some data
      let base64_string := base64Encode bytes
      let image_name ← (rustSplit '/' image_ref.target).getLast?
      let file_ext ← (rustSplit '.' image_name).getLast?
      pure ("![" ++ image_name ++ "](data:image/" ++ file_ext ++ ";base64," ++
            base64_string ++ ")" ++ "\n", image_count)
  | .Save =>
    match lookupFirst s.image_data image_ref.id with
    | none => some ("\n", image_count)
    | some data => do
      -- `let _ = fs::write(&image_path, image_data?)`: the `?` still propagates.
      let _ ← if s.config.compress_images then Slide.compress_image env s data
              else some data
      let ext := if s.config.compress_images then "jpg"
                 else get_image_extension image_ref.target
      let output_dir := s.config.image_output_path.getD "."
      let file_name := "slide" ++ toString s.slide_number ++ "_image" ++
        toString (image_count + 1) ++ "_" ++ image_ref.id ++ "." ++ ext
      let image_path := output_dir ++ "/" ++ file_name
      let abs_file_url ← path_to_file_url env image_path
      let html_link := "<a href=" ++ debugQuote abs_file_url ++ ">" ++ file_name ++ "</a>"
      pure (html_link ++ "\n" ++ "\n", image_count + 1)
  | .Manually => some ("\n", image_count)

/-- The text contributed by one element of the sorted list in
`Slide::convert_to_md`, with the `image_count` threaded through (only the
`Save` arm uses and updates it). -/
def elementChunk (env : RenderEnv) (s : Slide) (image_count : Nat) :
    SlideElement → Option (String × Nat)
  | .Text text _ => some (String.join (text.runs.map Run.render_as_md) ++ "\n", image_count)
  | .Table table _ => some (renderTable table, image_count)
  | .Image image_ref _ => imageChunk env s image_count image_ref
  | .List list_element _ => some (renderList list_element.items, image_count)
  | .Unknown => some ("", image_count)

/-- The optional slide comment header of `Slide::convert_to_md`. -/
def slideHeader (s : Slide) : String :=
  if s.config.include_slide_comment
  then "<!-- Slide " ++ toString s.slide_number ++ " -->" ++ "\n" ++ "\n"
  else ""

/-- `slide.rs`: `Slide::convert_to_md` — emit the optional header, stable-sort
the elements by `(y, x)`, then push each element's markup in order;
any failing `?` inside an image arm aborts with `None`. -/
def Slide.convert_to_md (env : RenderEnv) (s : Slide) : Option String := do
  let st ← (sortElements s.elements).foldlM
    (fun (st : String × Nat) e =>
      (elementChunk env s st.2 e).map (fun p => (st.1 ++ p.1, p.2)))
    (slideHeader s, 0)
  pure st.1

/-! ## XML tree model (`roxmltree` nodes, as queried by `parse_xml.rs`)

`parse_xml.rs` consumes an already-parsed `roxmltree::Document`; the XML
parser itself is an external library (spec §1).  We model the node tree the
code navigates: element nodes carry a local name, a resolved namespace, a
list of attributes (each with an optionally-namespaced name) and child nodes
in document order; text nodes carry their content. -/

inductive Xml where
  | element (name : String) (ns : Option String)
      (attrs : List ((Option String × String) × String)) (children : List Xml)
  | text (content : String)

/-- `Node::is_element`. -/
def Xml.isElement : Xml → Bool
  | .element _ _ _ _ => true
  | .text _ => false

/-- `Node::tag_name().name()` (empty for non-element nodes). -/
def Xml.tagName : Xml → String
  | .element n _ _ _ => n
  | .text _ => ""

/-- `Node::tag_name().namespace()`. -/
def Xml.namespaceURI : Xml → Option String
  | .element _ ns _ _ => ns
  | .text _ => none

/-- `Node::children()` (in document order, text nodes included). -/
def Xml.children : Xml → List Xml
  | .element _ _ _ cs => cs
  | .text _ => []

/-- `Node::attribute(name)`: an attribute with no namespace and this local name. -/
def Xml.attr (x : Xml) (name : String) : Option String :=
  match x with
  | .element _ _ attrs _ => (attrs.find? (fun a => a.1 == (none, name))).map (·.2)
  | .text _ => none

/-- `Node::attribute((ns, name))`: a namespace-qualified attribute. -/
def Xml.attrNS (x : Xml) (ns name : String) : Option String :=
  match x with
  | .element _ _ attrs _ => (attrs.find? (fun a => a.1 == (some ns, name))).map (·.2)
  | .text _ => none

/-- `Node::text()`: the content of the node's first child when that child is
a text node. -/
def Xml.innerText : Xml → Option String
  | .element _ _ _ (.text s :: _) => some s
  | _ => none

mutual

/-- `Node::descendants()`: the node itself followed by all descendants in
document (preorder) order. -/
def Xml.descendants : Xml → List Xml
  | .text s => [.text s]
  | .element n ns a cs => .element n ns a cs :: Xml.descendantsList cs

def Xml.descendantsList : List Xml → List Xml
  | [] => []
  | c :: rest => c.descendants ++ Xml.descendantsList rest

end

/-- `constants.rs` is not among the provided source files.
Modelled from the spec: the OOXML DrawingML main namespace URI
(`A_NAMESPACE`), used throughout `parse_xml.rs` for `a:`-prefixed nodes. -/
def A_NAMESPACE : String := "http://schemas.openxmlformats.org/drawingml/2006/main"

/-- Modelled from the spec: the PresentationML namespace URI (`P_NAMESPACE`)
from the missing `constants.rs`, used for `p:`-prefixed nodes. -/
def P_NAMESPACE : String := "http://schemas.openxmlformats.org/presentationml/2006/main"

/-- Modelled from the spec: the OOXML officeDocument relationships namespace
URI (`RELS_NAMESPACE`) from the missing `constants.rs`, used for the
`r:embed` attribute. -/
def RELS_NAMESPACE : String := "http://schemas.openxmlformats.org/officeDocument/2006/relationships"

/-- Rust `str::parse::<u32>()`: an optional `'+'` sign, then one or more
ASCII digits, value below `2^32`. -/
def rustParseU32 (s : String) : Option Nat :=
  let cs := match s.data with
    | '+' :: rest => rest
    | cs => cs
  if cs.isEmpty then none
  else if cs.all Char.isDigit then
    let v := cs.foldl (fun acc c => acc * 10 + (c.toNat - '0'.toNat)) 0
    if v < 2 ^ 32 then some v else none
  else none

/-- Rust `str::parse::<i64>()`: an optional sign, then one or more ASCII
digits, value within the `i64` range. -/
def rustParseI64 (s : String) : Option Int :=
  let (neg, cs) : Bool × List Char := match s.data with
    | '+' :: rest => (false, rest)
    | '-' :: rest => (true, rest)
    | cs => (false, cs)
  if cs.isEmpty then none
  else if cs.all Char.isDigit then
    let v : Nat := cs.foldl (fun acc c => acc * 10 + (c.toNat - '0'.toNat)) 0
    let i : Int := if neg then -(v : Int) else (v : Int)
    if -(2 ^ 63) ≤ i ∧ i < 2 ^ 63 then some i else none
  else none

/-- `parse_xml.rs`: the private `ParsedContent` enum. -/
inductive ParsedContent where
  | Text (t : TextElement)
  | List (l : ListElement)
deriving DecidableEq, Repr

/-- `parse_xml.rs`: `extract_position` — find the first `a:xfrm` descendant,
read the integer `x`/`y` attributes of its first `a:off` child; any failure
yields the default origin position. -/
def extract_position (node : Xml) : ElementPosition :=
  let computed : Option ElementPosition := do
    let xfrm ← node.descendants.find? (fun n =>
      n.namespaceURI == some A_NAMESPACE && n.tagName == "xfrm")
    let offX ← xfrm.children.find? (fun n =>
      n.tagName == "off" && n.namespaceURI == some A_NAMESPACE)
    let x ← (offX.attr "x").bind rustParseI64
    let offY ← xfrm.children.find? (fun n =>
      n.tagName == "off" && n.namespaceURI == some A_NAMESPACE)
    let y ← (offY.attr "y").bind rustParseI64
    pure ⟨x, y⟩
  computed.getD ElementPosition.default

/-- `parse_xml.rs`: `parse_run` — formatting from the optional `a:rPr` child
(`b`/`i` accept `"1"` or ASCII-case-insensitive `"true"`; `u` is active
unless literally `"none"`), text from the optional `a:t` child. -/
def parse_run (r_node : Xml) : Except Error Run :=
  let formatting : Formatting :=
    match r_node.children.find? (fun n =>
      n.isElement && n.tagName == "rPr" && n.namespaceURI == some A_NAMESPACE) with
    | none => Formatting.default
    | some r_pr =>
      let f := Formatting.default
      let f := match r_pr.attr "b" with
        | some b => { f with bold := b == "1" || b.toLower == "true" }
        | none => f
      let f := match r_pr.attr "i" with
        | some i => { f with italic := i == "1" || i.toLower == "true" }
        | none => f
      let f := match r_pr.attr "u" with
        | some u => { f with underlined := u != "none" }
        | none => f
      let f := match r_pr.attr "lang" with
        | some lang => { f with lang := lang }
        | none => f
      f
  let text : String :=
    match r_node.children.find? (fun n =>
      n.isElement && n.tagName == "t" && n.namespaceURI == some A_NAMESPACE) with
    | some t_node => (t_node.innerText).getD ""
    | none => ""
  .ok { text := text, formatting := formatting }

/-- The indexed loop inside `parse_paragraph`: parse each `a:r` child, and
append `'\n'` to the text of the last one when `add_new_line` is set. -/
def parseRunNodes (add_new_line : Bool) (count : Nat) :
    Nat → List Xml → Except Error (List Run)
  | _, [] => .ok []
  | idx, r_node :: rest => do
    let run ← parse_run r_node
    let run := if add_new_line && idx == count - 1
      then { run with text := run.text ++ "\n" } else run
    let tail ← parseRunNodes add_new_line count (idx + 1) rest
    .ok (run :: tail)

/-- `parse_xml.rs`: `parse_paragraph`. -/
def parse_paragraph (p_node : Xml) (add_new_line : Bool) : Except Error (List Run) :=
  let run_nodes := p_node.children.filter (fun n =>
    n.isElement && n.tagName == "r" && n.namespaceURI == some A_NAMESPACE)
  parseRunNodes add_new_line run_nodes.length 0 run_nodes

/-- The `a:p` element children of a text body (the iteration domain shared by
`parse_text`, `parse_list` and `parse_table_cell`). -/
def paragraphNodes (node : Xml) : List Xml :=
  node.children.filter (fun n =>
    n.isElement && n.tagName == "p" && n.namespaceURI == some A_NAMESPACE)

/-- `parse_xml.rs`: `parse_text` — concatenate the runs of every paragraph,
with a paragraph-final newline. -/
def parse_text (tx_body_node : Xml) : Except Error TextElement := do
  let runs ← (paragraphNodes tx_body_node).foldlM
    (fun acc p_node => do
      let paragraph_runs ← parse_paragraph p_node true
      pure (acc ++ paragraph_runs)) []
  .ok { runs := runs }

/-- `parse_xml.rs`: `parse_list_properties` — level from the `lvl` attribute
of the first `a:pPr` child (unparseable → 0), ordered iff that child has a
`buAutoNum` element child or, failing that, a `buChar` element child. -/
def parse_list_properties (p_node : Xml) : Except Error (Nat × Bool) :=
  match p_node.children.find? (fun n =>
    n.isElement && n.tagName == "pPr" && n.namespaceURI == some A_NAMESPACE) with
  | none => .ok (0, false)
  | some p_pr_node =>
    let level := match p_pr_node.attr "lvl" with
      | some lvl_attr => (rustParseU32 lvl_attr).getD 0
      | none => 0
    let is_ordered := p_pr_node.children.any (fun n =>
      n.isElement && n.namespaceURI == some A_NAMESPACE && n.tagName == "buAutoNum")
    let is_ordered := if !is_ordered
      then p_pr_node.children.any (fun n =>
        n.isElement && n.namespaceURI == some A_NAMESPACE && n.tagName == "buChar")
      else is_ordered
    .ok (level, is_ordered)

/-- `parse_xml.rs`: `parse_list` — one `ListItem` per paragraph. -/
def parse_list (tx_body_node : Xml) : Except Error ListElement := do
  let items ← (paragraphNodes tx_body_node).foldlM
    (fun acc p_node => do
      let (level, is_ordered) ← parse_list_properties p_node
      let runs ← parse_paragraph p_node true
      pure (acc ++ [ListItem.mk level is_ordered runs])) []
  .ok { items := items }

/-- `parse_xml.rs`: `parse_sp` — find the `p:txBody` child (absence is the
fatal `Error::Unknown`), classify the shape as a list when any descendant
`a:pPr` has a `lvl` attribute or a `buAutoNum`/`buChar` element child. -/
def parse_sp (sp_node : Xml) : Except Error ParsedContent := do
  let tx_body_node ← match sp_node.children.find? (fun n =>
      n.tagName == "txBody" && n.namespaceURI == some P_NAMESPACE) with
    | some n => Except.ok n
    | none => Except.error Error.Unknown
  let is_list := tx_body_node.descendants.any (fun n =>
    n.isElement && n.tagName == "pPr" && n.namespaceURI == some A_NAMESPACE &&
    ((n.attr "lvl").isSome ||
      n.children.any (fun child =>
        child.isElement && (child.tagName == "buAutoNum" || child.tagName == "buChar"))))
  if is_list then
    let l ← parse_list tx_body_node
    pure (ParsedContent.List l)
  else
    let t ← parse_text tx_body_node
    pure (ParsedContent.Text t)

/-- `parse_xml.rs`: `parse_table_cell` — runs from the paragraphs of the
optional `a:txBody` child, newline suppressed. -/
def parse_table_cell (tc_node : Xml) : Except Error TableCell := do
  match tc_node.children.find? (fun n =>
    n.isElement && n.tagName == "txBody" && n.namespaceURI == some A_NAMESPACE) with
  | none => .ok { runs := [] }
  | some tx_body_node => do
    let runs ← (paragraphNodes tx_body_node).foldlM
      (fun acc p_node => do
        let paragraph_runs ← parse_paragraph p_node false
        pure (acc ++ paragraph_runs)) []
    .ok { runs := runs }

/-- `parse_xml.rs`: `parse_table_row`. -/
def parse_table_row (tr_node : Xml) : Except Error TableRow := do
  let cells ← (tr_node.children.filter (fun n =>
      n.isElement && n.tagName == "tc" && n.namespaceURI == some A_NAMESPACE)).foldlM
    (fun acc tc_node => do
      let cell ← parse_table_cell tc_node
      pure (acc ++ [cell])) []
  .ok { cells := cells }

/-- `parse_xml.rs`: `parse_table`. -/
def parse_table (tbl_node : Xml) : Except Error TableElement := do
  let rows ← (tbl_node.children.filter (fun n =>
      n.isElement && n.tagName == "tr" && n.namespaceURI == some A_NAMESPACE)).foldlM
    (fun acc tr_node => do
      let row ← parse_table_row tr_node
      pure (acc ++ [row])) []
  .ok { rows := rows }

/-- `parse_xml.rs`: `parse_graphic_frame` — a table only when an
`a:graphicData` descendant declares the table schema URI and has an `a:tbl`
child. -/
def parse_graphic_frame (node : Xml) : Except Error (Option TableElement) := do
  match node.descendants.find? (fun n =>
    n.isElement && n.tagName == "graphicData" && n.namespaceURI == some A_NAMESPACE &&
    n.attr "uri" == some "http://schemas.openxmlformats.org/drawingml/2006/table") with
  | none => .ok none
  | some graphic_data =>
    match graphic_data.children.find? (fun n =>
      n.isElement && n.tagName == "tbl" && n.namespaceURI == some A_NAMESPACE) with
    | none => .ok none
    | some tbl_node => do
      let table ← parse_table tbl_node
      .ok (some table)

/-- `parse_xml.rs`: `parse_pic` — the first `a:blip` descendant's
embed-relationship attribute (namespaced `r:embed`, falling back to the
literal attribute name `"r:embed"`); missing blip or attribute is
`Error::ImageNotFound`. -/
def parse_pic (pic_node : Xml) : Except Error ImageReference :=
  match pic_node.descendants.find? (fun n =>
      n.isElement && n.tagName == "blip" && n.namespaceURI == some A_NAMESPACE) with
  | none => .error Error.ImageNotFound
  | some blip_node =>
    match (blip_node.attrNS RELS_NAMESPACE "embed").orElse
        (fun _ => blip_node.attr "r:embed") with
    | none => .error Error.ImageNotFound
    | some embed_attr => .ok { id := embed_attr, target := "" }

mutual

/-- `parse_xml.rs`: `parse_group` — dispatch one shape-tree node by
`(namespace, tag)`; nodes outside the presentation namespace contribute
nothing, unrecognized presentation tags contribute `Unknown`, and `grpSp`
recurses into its element children. -/
def parse_group : Xml → Except Error (List SlideElement)
  | .text _ => .ok []
  | .element name ns attrs children =>
    if ns.getD "" ≠ P_NAMESPACE then .ok []
    else if name = "sp" then
      match parse_sp (Xml.element name ns attrs children) with
      | .ok (ParsedContent.Text t) =>
        .ok [SlideElement.Text t (extract_position (Xml.element name ns attrs children))]
      | .ok (ParsedContent.List l) =>
        .ok [SlideElement.List l (extract_position (Xml.element name ns attrs children))]
      | .error e => .error e
    else if name = "graphicFrame" then
      match parse_graphic_frame (Xml.element name ns attrs children) with
      | .ok (some table) =>
        .ok [SlideElement.Table table (extract_position (Xml.element name ns attrs children))]
      | .ok none => .ok []
      | .error e => .error e
    else if name = "pic" then
      match parse_pic (Xml.element name ns attrs children) with
      | .ok image_reference =>
        .ok [SlideElement.Image image_reference
          (extract_position (Xml.element name ns attrs children))]
      | .error e => .error e
    else if name = "grpSp" then parseGroupChildren children
    else .ok [SlideElement.Unknown]

/-- The `for child in node.children().filter(|n| n.is_element())` loop of the
`grpSp` arm (also the top-level `spTree` loop of `parse_slide_xml`):
left-to-right, first error aborts. -/
def parseGroupChildren : List Xml → Except Error (List SlideElement)
  | [] => .ok []
  | c :: rest =>
    match (if c.isElement then parse_group c else .ok []) with
    | .error e => .error e
    | .ok head =>
      match parseGroupChildren rest with
      | .error e => .error e
      | .ok tail => .ok (head ++ tail)

end

/-- `parse_xml.rs`: `parse_slide_xml`, modelled from the parsed document's
root element on (UTF-8 decoding and `Document::parse` are the external XML
library, spec §1): find the `cSld` descendant in the root's namespace, its
`spTree` child, and fold `parse_group` over the shape-tree children. -/
def parse_slide_xml (root : Xml) : Except Error (List SlideElement) :=
  match root.descendants.find? (fun n =>
      n.tagName == "cSld" && n.namespaceURI == root.namespaceURI) with
  | none => .error Error.Unknown
  | some c_sld =>
    match c_sld.children.find? (fun n =>
        n.tagName == "spTree" && n.namespaceURI == root.namespaceURI) with
    | none => .error Error.Unknown
    | some sp_tree => parseGroupChildren sp_tree.children

/-! ## Spec-side definitions used by refinement comparisons -/

/-- Modelled from the spec's words for the run-rendering rule (§4.5 step 4 /
claim C4): strip a single *trailing* newline before applying inline markup
and restore it afterwards.  To be compared against `Run.render_as_md`. -/
def renderAsMdSpec (r : Run) : String :=
  let has_new_line := endsWithNewline r.text
  let result := if has_new_line then String.mk r.text.data.dropLast else r.text
  let result := applyMarkup r.formatting result
  if has_new_line then result ++ "\n" else result

/-- Modelled from the spec's words for `parse_list_properties` (§4.3):
default level 0 and unordered; with a paragraph-properties child, level from
the parsed `lvl` attribute (missing or unparseable → 0) and ordered exactly
when a `buAutoNum` or `buChar` element child is present.  To be compared
against `parse_list_properties`. -/
def listPropsSpec (p_node : Xml) : Nat × Bool :=
  match p_node.children.find? (fun n =>
    n.isElement && n.tagName == "pPr" && n.namespaceURI == some A_NAMESPACE) with
  | none => (0, false)
  | some p_pr_node =>
    let level := ((p_pr_node.attr "lvl").bind rustParseU32).getD 0
    let auto := p_pr_node.children.any (fun n =>
      n.isElement && n.namespaceURI == some A_NAMESPACE && n.tagName == "buAutoNum")
    let char := p_pr_node.children.any (fun n =>
      n.isElement && n.namespaceURI == some A_NAMESPACE && n.tagName == "buChar")
    (level, auto || char)

/-! ## Derived views of the renderer and parser used in the theorems -/

/-- The per-element text chunks of the conversion loop together with the
final image counter: `convert_to_md` is the header followed by the
concatenation of these chunks (proved below). -/
def chunkAux (env : RenderEnv) (s : Slide) :
    Nat → List SlideElement → Option (List String × Nat)
  | count, [] => some ([], count)
  | count, e :: rest => do
    let p ← elementChunk env s count e
    let q ← chunkAux env s p.2 rest
    pure (p.1 :: q.1, q.2)

/-- A `p:pic` node whose picture has no resolvable image reference: no
`a:blip` descendant, or a blip without the embed-relationship attribute
(the condition under which `parse_pic` returns `Error::ImageNotFound`). -/
def picLacksImageRef (n : Xml) : Bool :=
  match n.descendants.find? (fun m =>
    m.isElement && m.tagName == "blip" && m.namespaceURI == some A_NAMESPACE) with
  | none => true
  | some blip =>
    ((blip.attrNS RELS_NAMESPACE "embed").orElse (fun _ => blip.attr "r:embed")).isNone

mutual

/-- Whether the shape-tree traversal of `parse_group`, started at this node,
reaches a presentation-namespace `pic` with no resolvable image reference. -/
def treeHasBadPic : Xml → Bool
  | .text _ => false
  | .element name ns attrs children =>
    if ns.getD "" ≠ P_NAMESPACE then false
    else if name = "pic" then picLacksImageRef (Xml.element name ns attrs children)
    else if name = "grpSp" then childrenHaveBadPic children
    else false

def childrenHaveBadPic : List Xml → Bool
  | [] => false
  | c :: rest => (c.isElement && treeHasBadPic c) || childrenHaveBadPic rest

end

/-! ## Concrete fixtures for counterexamples and witnesses -/

/-- The default `ParserConfig` (`parser_config.rs` `Default`), with the slide
comment disabled. -/
def cfgDefault : ParserConfig :=
  { extract_images := true, compress_images := true, quality := 80,
    image_handling_mode := .InMarkdown, image_output_path := none,
    include_slide_comment := false }

/-- An identity transcoder environment. -/
def envId : RenderEnv :=
  { transcode := fun d _ => some d, canonicalize := fun s => some s }

/-- A transcoder that always fails (the behaviour of `Slide::compress_image`
whenever `image::load_from_memory` cannot decode the bytes). -/
def envFail : RenderEnv :=
  { transcode := fun _ _ => none, canonicalize := fun _ => none }

/-- A slide holding one text run and one image whose bytes `[1, 2, 3]` are
in `image_data` but are not decodable as an image. -/
def slideWithBadImage : Slide :=
  { rel_path := "ppt/slides/slide1.xml", slide_number := 1,
    elements := [.Text ⟨[⟨"A", Formatting.default⟩]⟩ ⟨0, 0⟩,
                 .Image ⟨"rId1", "../media/image1.png"⟩ ⟨0, 1⟩],
    images := [⟨"rId1", "../media/image1.png"⟩],
    image_data := [("rId1", [1, 2, 3])],
    config := cfgDefault }

/-- A slide in `Manually` image-handling mode holding a single image element. -/
def slideManually : Slide :=
  { rel_path := "ppt/slides/slide1.xml", slide_number := 1,
    elements := [.Image ⟨"rId2", "../media/image1.png"⟩ ⟨0, 0⟩],
    images := [⟨"rId2", "../media/image1.png"⟩],
    image_data := [("rId2", [1, 2, 3])],
    config := { cfgDefault with image_handling_mode := .Manually } }

/-- The slide of the `test_link_images` unit test: one relationship
`rId2 → ../media/image1.png` and one image element with that id and an empty
target. -/
def slideLinkTest : Slide :=
  { rel_path := "ppt/slides/slide1.xml", slide_number := 1,
    elements := [.Image ⟨"rId2", ""⟩ ⟨0, 0⟩],
    images := [⟨"rId2", "../media/image1.png"⟩],
    image_data := [],
    config := cfgDefault }

/-- A `p:pic` shape node with no `a:blip` descendant at all. -/
def badPicNode : Xml := .element "pic" (some P_NAMESPACE) [] []

/-- A `p:sp` shape node with no `p:txBody` child (`parse_sp` fails on it with
`Error::Unknown`). -/
def spWithoutTxBody : Xml := .element "sp" (some P_NAMESPACE) [] []

/-- A slide document whose shape tree holds a `txBody`-less `sp` followed by
a blip-less `pic`. -/
def slideDocSpThenBadPic : Xml :=
  .element "sld" (some P_NAMESPACE) []
    [.element "cSld" (some P_NAMESPACE) []
      [.element "spTree" (some P_NAMESPACE) [] [spWithoutTxBody, badPicNode]]]

/-- A slide document whose shape tree holds just a blip-less `pic`. -/
def slideDocBadPicOnly : Xml :=
  .element "sld" (some P_NAMESPACE) []
    [.element "cSld" (some P_NAMESPACE) []
      [.element "spTree" (some P_NAMESPACE) [] [badPicNode]]]

/-! ## Helper lemmas -/

theorem lookupLast_foldl_none (k : String) :
    ∀ (ps : List (String × String)) (acc : Option String),
      (ps.foldl (fun acc p => if p.1 == k then some p.2 else acc) acc = none ↔
        (acc = none ∧ ∀ p ∈ ps, p.1 ≠ k))
  | [], acc => by simp
  | p :: ps, acc => by
    simp only [List.foldl_cons]
    rw [lookupLast_foldl_none k ps]
    by_cases h : p.1 = k
    · simp [h]
    · simp [h]

/-- The `link_images` lookup misses exactly the ids that occur nowhere in the
`images` list. -/
theorem idToTarget_eq_none_iff (images : List ImageReference) (id : String) :
    idToTarget images id = none ↔ ∀ r ∈ images, r.id ≠ id := by
  unfold idToTarget lookupLast
  rw [lookupLast_foldl_none]
  simp

theorem linkElement_idem (images : List ImageReference) (e : SlideElement) :
    linkElement images (linkElement images e) = linkElement images e := by
  cases e with
  | Image r pos =>
    simp only [linkElement]
    cases h : idToTarget images r.id with
    | some t => simp [linkElement, h]
    | none => simp [linkElement, h]
  | Text t pos => rfl
  | Table t pos => rfl
  | List l pos => rfl
  | Unknown => rfl

theorem linkElement_of_not_image (images : List ImageReference) (e : SlideElement)
    (h : ∀ r pos, e ≠ .Image r pos) : linkElement images e = e := by
  cases e with
  | Image r pos => exact absurd rfl (h r pos)
  | Text t pos => rfl
  | Table t pos => rfl
  | List l pos => rfl
  | Unknown => rfl

/-! ## Claim C5 -/

/-- C5: `parse_list_properties` never errors; it returns level 0 and
unordered without a paragraph-properties child, and otherwise the parsed
`lvl` attribute (0 when missing or unparseable) together with
`is_ordered = true` exactly when a `buAutoNum` or `buChar` element child is
present — character bullets classified as ordered just like automatic
numbering. -/
theorem parse_list_properties_correct (p_node : Xml) :
    parse_list_properties p_node = Except.ok (listPropsSpec p_node) := by
  unfold parse_list_properties listPropsSpec
  cases hf : p_node.children.find? (fun n =>
      n.isElement && n.tagName == "pPr" && n.namespaceURI == some A_NAMESPACE) with
  | none => rfl
  | some p_pr =>
    cases ha : p_pr.attr "lvl" <;>
      cases hb : p_pr.children.any (fun n =>
        n.isElement && n.namespaceURI == some A_NAMESPACE && n.tagName == "buAutoNum") <;>
      simp [ha, hb]

/-! ## Claim C6 -/

/-- C6: after `Slide::link_images`, an image element whose relationship id is
in the images map gets that relationship's target, an image element whose id
is absent keeps its fields unchanged, absence coincides with the id occurring
nowhere in the `images` list, and the `test_link_images` scenario (`rId2`
against `../media/image1.png`) resolves as the claim states; no error arises
in either case (the function is total). -/
theorem link_images_resolves_targets :
    (∀ (s : Slide) (i : Nat) (r : ImageReference) (pos : ElementPosition),
      s.elements[i]? = some (.Image r pos) →
        (∀ t, idToTarget s.images r.id = some t →
          (Slide.link_images s).elements[i]? = some (.Image ⟨r.id, t⟩ pos)) ∧
        (idToTarget s.images r.id = none →
          (Slide.link_images s).elements[i]? = some (.Image r pos))) ∧
    (∀ (images : List ImageReference) (id : String),
      idToTarget images id = none ↔ ∀ r ∈ images, r.id ≠ id) ∧
    (Slide.link_images slideLinkTest).elements =
      [.Image ⟨"rId2", "../media/image1.png"⟩ ⟨0, 0⟩] := by
  refine ⟨fun s i r pos h => ⟨fun t ht => ?_, fun hn => ?_⟩, idToTarget_eq_none_iff, by rfl⟩
  · show (s.elements.map (linkElement s.images))[i]? = _
    rw [List.getElem?_map, h]
    simp [linkElement, ht]
  · show (s.elements.map (linkElement s.images))[i]? = _
    rw [List.getElem?_map, h]
    simp [linkElement, hn]

/-- Witness for C6 at the `test_link_images` input. -/
theorem link_images_resolves_targets_witness :
    (Slide.link_images slideLinkTest).elements[0]? =
      some (.Image ⟨"rId2", "../media/image1.png"⟩ ⟨0, 0⟩) :=
  (link_images_resolves_targets.1 slideLinkTest 0 ⟨"rId2", ""⟩ ⟨0, 0⟩ rfl).1
    "../media/image1.png" rfl

/-! ## Claim C7 -/

/-- C7: `Slide::link_images` is idempotent — a second pass leaves the element
list exactly as after the first pass. -/
theorem link_images_idempotent (s : Slide) :
    (s.link_images.link_images).elements = s.link_images.elements := by
  show (s.elements.map (linkElement s.images)).map (linkElement s.images) =
    s.elements.map (linkElement s.images)
  rw [List.map_map]
  exact List.map_congr_left fun e _ => linkElement_idem s.images e

/-! ## Claim C10 -/

/-- C10: the frame property of `Slide::link_images` — every non-element field
of the slide is unchanged, the element list keeps its length and order,
non-image elements are untouched, and an image element keeps its id and
position (only the target may change, and only when its id is in the map). -/
theorem link_images_frame (s : Slide) :
    s.link_images.rel_path = s.rel_path ∧
    s.link_images.slide_number = s.slide_number ∧
    s.link_images.images = s.images ∧
    s.link_images.image_data = s.image_data ∧
    s.link_images.config = s.config ∧
    s.link_images.elements.length = s.elements.length ∧
    (∀ (i : Nat) (e : SlideElement), s.elements[i]? = some e →
      (∀ (r : ImageReference) (pos : ElementPosition), e ≠ SlideElement.Image r pos) →
      s.link_images.elements[i]? = some e) ∧
    (∀ (i : Nat) (r : ImageReference) (pos : ElementPosition),
      s.elements[i]? = some (.Image r pos) →
      ∃ t, s.link_images.elements[i]? = some (.Image ⟨r.id, t⟩ pos) ∧
        (idToTarget s.images r.id = none → t = r.target)) := by
  refine ⟨rfl, rfl, rfl, rfl, rfl, ?_, fun i e h hne => ?_, fun i r pos h => ?_⟩
  · show (s.elements.map (linkElement s.images)).length = _
    exact List.length_map _ _
  · show (s.elements.map (linkElement s.images))[i]? = _
    rw [List.getElem?_map, h]
    simp [linkElement_of_not_image s.images e hne]
  · show ∃ t, (s.elements.map (linkElement s.images))[i]? = _ ∧ _
    rw [List.getElem?_map, h]
    cases ht : idToTarget s.images r.id with
    | some t => exact ⟨t, by simp [linkElement, ht], fun hn => nomatch hn⟩
    | none => exact ⟨r.target, by simp [linkElement, ht], fun _ => rfl⟩

/-- Witness for C10 at the `test_link_images` input. -/
theorem link_images_frame_witness :
    ∃ t, (Slide.link_images slideLinkTest).elements[0]? =
      some (.Image ⟨"rId2", t⟩ ⟨0, 0⟩) ∧
      (idToTarget slideLinkTest.images "rId2" = none → t = "") :=
  (link_images_frame slideLinkTest).2.2.2.2.2.2.2 0 ⟨"rId2", ""⟩ ⟨0, 0⟩ rfl

/-! ## Claim C4 -/

/-- C4 counterexample: on the bold run `"a\nb\n"`, `Run::render_as_md`
removes the *interior* newline as well (its `replace('\n', "")` strips every
newline), so it diverges from the claimed strip-trailing-and-restore rule. -/
theorem render_as_md_counterexample :
    Run.render_as_md ⟨"a\nb\n", ⟨true, false, false, ""⟩⟩ = "**ab**\n" ∧
    renderAsMdSpec ⟨"a\nb\n", ⟨true, false, false, ""⟩⟩ = "**a\nb**\n" ∧
    Run.render_as_md ⟨"a\nb\n", ⟨true, false, false, ""⟩⟩ ≠
      renderAsMdSpec ⟨"a\nb\n", ⟨true, false, false, ""⟩⟩ := by
  refine ⟨by decide, by decide, by decide⟩

/-- C4 amended: when the run's text ends with a newline, `render_as_md`
strips *all* newline characters (not just the trailing one) before applying
the markup and appends a single newline afterwards — which agrees with the
claimed strip-trailing-restore behaviour whenever the text has no interior
newline.  Bold+italic yields `***text***`, bold alone `**text**`, italic
alone `_text_`, underline wraps the (possibly emphasis-wrapped) result, and
a trailing newline survives the wrapping and remains trailing. -/
theorem render_as_md_amended :
    (∀ r : Run, '\n' ∉ r.text.data.dropLast →
      Run.render_as_md r = renderAsMdSpec r) ∧
    (∀ r : Run, endsWithNewline r.text = true →
      endsWithNewline (Run.render_as_md r) = true) ∧
    (∀ r : Run, endsWithNewline r.text = true →
      Run.render_as_md r = applyMarkup r.formatting (removeNewlines r.text) ++ "\n") ∧
    (∀ r : Run, endsWithNewline r.text = false →
      Run.render_as_md r = applyMarkup r.formatting r.text) ∧
    (∀ (u : Bool) (lang t : String), applyMarkup ⟨true, true, u, lang⟩ t =
      (if u then "<u>" ++ ("***" ++ t ++ "***") ++ "</u>" else "***" ++ t ++ "***")) ∧
    (∀ (u : Bool) (lang t : String), applyMarkup ⟨true, false, u, lang⟩ t =
      (if u then "<u>" ++ ("**" ++ t ++ "**") ++ "</u>" else "**" ++ t ++ "**")) ∧
    (∀ (u : Bool) (lang t : String), applyMarkup ⟨false, true, u, lang⟩ t =
      (if u then "<u>" ++ ("_" ++ t ++ "_") ++ "</u>" else "_" ++ t ++ "_")) := by
  have hmk : ∀ r : Run, '\n' ∉ r.text.data.dropLast → endsWithNewline r.text = true →
      removeNewlines r.text = String.mk r.text.data.dropLast := by
    intro r hno h
    have h' : r.text.data.getLast? = some '\n' := by
      simpa [endsWithNewline] using h
    obtain ⟨ys, hys⟩ := List.getLast?_eq_some_iff.mp h'
    unfold removeNewlines
    rw [hys, List.dropLast_concat] at hno ⊢
    rw [List.filter_append]
    have h1 : ys.filter (fun c => !decide (c = '\n')) = ys :=
      List.filter_eq_self.mpr (fun a ha => by
        simp only [Bool.not_eq_true', decide_eq_false_iff_not]
        exact fun e => hno (e ▸ ha))
    simp only [ne_eq, decide_not]
    simp [h1]
  refine ⟨?_, ?_, ?_, ?_, ?_, ?_, ?_⟩
  · intro r hno
    cases h : endsWithNewline r.text with
    | false => simp [Run.render_as_md, renderAsMdSpec, Run.extract, h]
    | true => simp [Run.render_as_md, renderAsMdSpec, Run.extract, h, hmk r hno h]
  · intro r h
    simp only [Run.render_as_md, Run.extract, h, if_pos]
    simp [endsWithNewline, String.data_append, List.getLast?_concat]
  · intro r h
    simp [Run.render_as_md, Run.extract, h]
  · intro r h
    simp [Run.render_as_md, Run.extract, h]
  · intro u lang t
    cases u <;> simp [applyMarkup]
  · intro u lang t
    cases u <;> simp [applyMarkup]
  · intro u lang t
    cases u <;> simp [applyMarkup]

/-- Witness for the amended C4 at concrete runs. -/
theorem render_as_md_amended_witness :
    Run.render_as_md ⟨"Hello\n", ⟨true, true, false, ""⟩⟩ =
      renderAsMdSpec ⟨"Hello\n", ⟨true, true, false, ""⟩⟩ ∧
    endsWithNewline (Run.render_as_md ⟨"Hello\n", ⟨true, true, false, ""⟩⟩) = true ∧
    Run.render_as_md ⟨"Hi", ⟨false, false, true, ""⟩⟩ =
      applyMarkup ⟨false, false, true, ""⟩ "Hi" ∧
    applyMarkup ⟨true, true, false, ""⟩ "x" = "***x***" :=
  ⟨render_as_md_amended.1 ⟨"Hello\n", ⟨true, true, false, ""⟩⟩ (by decide),
   render_as_md_amended.2.1 ⟨"Hello\n", ⟨true, true, false, ""⟩⟩ (by decide),
   render_as_md_amended.2.2.2.1 ⟨"Hi", ⟨false, false, true, ""⟩⟩ (by decide),
   by simpa using render_as_md_amended.2.2.2.2.1 false "" "x"⟩

/-! ## Claim C9 -/

/-- C9 counterexample: in `Manually` mode a slide holding a single image
element converts to `"\n"`, while removing the element yields `""` — the
rendered output is *not* identical to the output without the element. -/
theorem manually_mode_counterexample :
    Slide.convert_to_md envId slideManually = some "\n" ∧
    Slide.convert_to_md envId { slideManually with elements := [] } = some "" ∧
    ("\n" : String) ≠ "" :=
  ⟨rfl, rfl, by decide⟩

/-- C9 amended: in `Manually` mode an image element contributes exactly one
newline to the output (the `push('\n'); continue` of the `Manually` arm), not
nothing; the image counter is untouched. -/
theorem manually_mode_emits_single_newline (env : RenderEnv) (s : Slide)
    (count : Nat) (r : ImageReference) (pos : ElementPosition)
    (h : s.config.image_handling_mode = .Manually) :
    elementChunk env s count (.Image r pos) = some ("\n", count) := by
  simp [elementChunk, imageChunk, h]

/-- Witness for the amended C9. -/
theorem manually_mode_emits_single_newline_witness :
    elementChunk envId slideManually 0
      (.Image ⟨"rId2", "../media/image1.png"⟩ ⟨0, 0⟩) = some ("\n", 0) :=
  manually_mode_emits_single_newline envId slideManually 0
    ⟨"rId2", "../media/image1.png"⟩ ⟨0, 0⟩ rfl

/-! ## Claim C3 -/

theorem listGetD_set_self : ∀ (l : List Nat) (i a d : Nat), i < l.length →
    (l.set i a).getD i d = a
  | _ :: _, 0, _, _, _ => rfl
  | _ :: xs, i + 1, a, d, h =>
    listGetD_set_self xs i a d (Nat.lt_of_succ_lt_succ h)

theorem listGetD_set_ne : ∀ (l : List Nat) (i j a d : Nat), i ≠ j →
    (l.set i a).getD j d = l.getD j d
  | [], _, _, _, _, _ => rfl
  | _ :: _, 0, 0, _, _, h => absurd rfl h
  | _ :: _, 0, _ + 1, _, _, _ => rfl
  | _ :: _, _ + 1, 0, _, _, _ => rfl
  | _ :: xs, i + 1, j + 1, a, d, h =>
    listGetD_set_ne xs i j a d (fun e => h (by rw [e]))

theorem listGetD_take (l : List Nat) (n i d : Nat) (h : i < n) :
    (l.take n).getD i d = l.getD i d := by
  rw [List.getD_eq_getElem?_getD, List.getD_eq_getElem?_getD, List.getElem?_take,
    if_pos h]

/-- The items of the C3 scenario: levels `[0, 1, 1, 0]`, all ordered. -/
def itemsC3 : List ListItem :=
  [⟨0, true, [⟨"A", Formatting.default⟩]⟩, ⟨1, true, [⟨"B", Formatting.default⟩]⟩,
   ⟨1, true, [⟨"C", Formatting.default⟩]⟩, ⟨0, true, [⟨"D", Formatting.default⟩]⟩]

/-- C3: on ordered items at levels `[0, 1, 1, 0]` the rendered markers are
`1. `, tab-indented `1. ` and `2. `, then unindented `2. `; in general a step
to a deeper level than the previous item restarts that level's counter at 1,
and a step to a shallower level discards all deeper counters (the counter
list shrinks to `level + 1` entries) while the shallower counters resume from
their previous values (the target level post-incremented). -/
theorem list_numbering_correct :
    renderList itemsC3 = "1. A\n\t1. B\n\t2. C\n2. D\n" ∧
    (∀ (counters : List Nat) (previous_level : Nat) (item : ListItem),
      previous_level < item.level →
      (listStep (counters, previous_level) item).1.1.getD item.level 0 = 1) ∧
    (∀ (counters : List Nat) (previous_level : Nat) (item : ListItem),
      item.level < previous_level → previous_level < counters.length →
      (listStep (counters, previous_level) item).1.1.length = item.level + 1 ∧
      (listStep (counters, previous_level) item).1.1.getD item.level 0 =
        counters.getD item.level 0 + 1 ∧
      (∀ i : Nat, i < item.level →
        (listStep (counters, previous_level) item).1.1.getD i 0 =
          counters.getD i 0)) := by
  refine ⟨by decide, ?_, ?_⟩
  · intro counters previous_level item hlt
    simp only [listStep, if_pos hlt]
    set padded := if counters.length ≤ item.level
      then counters ++ List.replicate (item.level + 1 - counters.length) 0
      else counters with hpad
    have hlen : item.level < padded.length := by
      rw [hpad]
      split
      · rw [List.length_append, List.length_replicate]
        omega
      · omega
    rw [listGetD_set_self _ _ _ _ (by simpa using hlen),
      listGetD_set_self _ _ _ _ hlen]
  · intro counters previous_level item hlt hlen
    have hpad : ¬ counters.length ≤ item.level := by omega
    have hnotgt : ¬ previous_level < item.level := by omega
    simp only [listStep, if_neg hpad, if_neg hnotgt, if_pos hlt]
    have htake : (counters.take (item.level + 1)).length = item.level + 1 := by
      rw [List.length_take]
      omega
    refine ⟨by simpa [List.length_set] using htake, ?_, ?_⟩
    · rw [listGetD_set_self _ _ _ _ (by omega),
        listGetD_take _ _ _ _ (Nat.lt_succ_self _)]
    · intro i hi
      rw [listGetD_set_ne _ _ _ _ _ (by omega),
        listGetD_take _ _ _ _ (by omega)]

/-- Witness for C3's general counter clauses at concrete states. -/
theorem list_numbering_correct_witness :
    (listStep ([1], 0) ⟨1, true, []⟩).1.1.getD 1 0 = 1 ∧
    (listStep ([1, 2], 1) ⟨0, true, []⟩).1.1.length = 1 ∧
    (listStep ([1, 2], 1) ⟨0, true, []⟩).1.1.getD 0 0 = 2 :=
  ⟨list_numbering_correct.2.1 [1] 0 ⟨1, true, []⟩ (by decide),
   (list_numbering_correct.2.2 [1, 2] 1 ⟨0, true, []⟩ (by decide) (by decide)).1,
   (list_numbering_correct.2.2 [1, 2] 1 ⟨0, true, []⟩ (by decide) (by decide)).2.1⟩

/-! ## Claim C1 -/

theorem splitCharList_ne_nil (c : Char) : ∀ l : List Char, splitCharList c l ≠ []
  | [] => by simp [splitCharList]
  | d :: rest => by
    simp only [splitCharList]
    split
    · simp
    · split <;> simp

theorem rustSplit_ne_nil (c : Char) (s : String) : rustSplit c s ≠ [] := by
  unfold rustSplit
  simp [splitCharList_ne_nil c s.data]

/-- C1 counterexample: with compression enabled (the default) and bytes that
the transcoder cannot decode, the `?` on the compressed data aborts the whole
conversion — `convert_to_md` returns `None` for the entire slide instead of
omitting just that image's markup. -/
theorem convert_to_md_counterexample :
    Slide.convert_to_md envFail slideWithBadImage = none ∧
    slideWithBadImage.config.compress_images = true ∧
    Slide.compress_image envFail slideWithBadImage [1, 2, 3] = none :=
  ⟨rfl, rfl, rfl⟩

theorem imageChunk_isSome (env : RenderEnv) (s : Slide) (count : Nat)
    (r : ImageReference)
    (h : s.config.image_handling_mode = .Manually ∨
      (s.config.image_handling_mode = .InMarkdown ∧ s.config.compress_images = false)) :
    (imageChunk env s count r).isSome = true := by
  rcases h with h | ⟨h1, h2⟩
  · simp [imageChunk, h]
  · simp only [imageChunk, h1]
    cases hl : lookupFirst s.image_data r.id with
    | none => rfl
    | some data =>
      obtain ⟨nm, hnm⟩ := Option.isSome_iff_exists.mp
        (List.getLast?_isSome.mpr (rustSplit_ne_nil '/' r.target))
      obtain ⟨ext, hext⟩ := Option.isSome_iff_exists.mp
        (List.getLast?_isSome.mpr (rustSplit_ne_nil '.' nm))
      simp [h2, hnm, hext]

theorem elementChunk_isSome (env : RenderEnv) (s : Slide)
    (h : s.config.image_handling_mode = .Manually ∨
      (s.config.image_handling_mode = .InMarkdown ∧ s.config.compress_images = false))
    (count : Nat) (e : SlideElement) :
    (elementChunk env s count e).isSome = true := by
  cases e with
  | Image r pos => exact imageChunk_isSome env s count r h
  | Text t pos => rfl
  | Table t pos => rfl
  | List l pos => rfl
  | Unknown => rfl

theorem foldChunks_isSome (env : RenderEnv) (s : Slide)
    (h : s.config.image_handling_mode = .Manually ∨
      (s.config.image_handling_mode = .InMarkdown ∧ s.config.compress_images = false)) :
    ∀ (l : List SlideElement) (st : String × Nat),
      (l.foldlM (fun (st : String × Nat) e =>
        (elementChunk env s st.2 e).map (fun p => (st.1 ++ p.1, p.2))) st).isSome = true
  | [], _ => rfl
  | e :: rest, st => by
    obtain ⟨p, hp⟩ := Option.isSome_iff_exists.mp (elementChunk_isSome env s h st.2 e)
    rw [List.foldlM_cons]
    simp only [hp, Option.map_some', Option.bind_eq_bind, Option.some_bind]
    exact foldChunks_isSome env s h rest _

/-- C1 amended: `convert_to_md` is *not* total — a failing transcode with
compression enabled aborts the whole slide (see the counterexample) — but in
`Manually` mode, and in `InMarkdown` mode with compression disabled, it
always returns a Markdown string; and in `InMarkdown` mode a relationship id
missing from `image_data` degrades to that one image contributing only a bare
newline (its markup omitted) while the rest of the slide still renders. -/
theorem convert_to_md_amended :
    (∀ (env : RenderEnv) (s : Slide),
      (s.config.image_handling_mode = .Manually ∨
        (s.config.image_handling_mode = .InMarkdown ∧
          s.config.compress_images = false)) →
      (Slide.convert_to_md env s).isSome = true) ∧
    (∀ (env : RenderEnv) (s : Slide) (count : Nat) (r : ImageReference)
      (pos : ElementPosition),
      s.config.image_handling_mode = .InMarkdown →
      lookupFirst s.image_data r.id = none →
      elementChunk env s count (.Image r pos) = some ("\n", count)) := by
  constructor
  · intro env s h
    obtain ⟨st, hst⟩ := Option.isSome_iff_exists.mp
      (foldChunks_isSome env s h (sortElements s.elements) (slideHeader s, 0))
    simp [Slide.convert_to_md, hst]
  · intro env s count r pos h1 h2
    simp [elementChunk, imageChunk, h1, h2]

/-- Witness for the amended C1: a `Manually`-mode slide converts, and a
missing byte blob yields the bare-newline chunk. -/
theorem convert_to_md_amended_witness :
    (Slide.convert_to_md envId slideManually).isSome = true ∧
    elementChunk envId slideWithBadImage 0 (.Image ⟨"rIdX", ""⟩ ⟨0, 0⟩) =
      some ("\n", 0) :=
  ⟨convert_to_md_amended.1 envId slideManually (Or.inl rfl),
   convert_to_md_amended.2 envId slideWithBadImage 0 ⟨"rIdX", ""⟩ ⟨0, 0⟩ rfl rfl⟩

/-! ## Claim C8 -/

/-- Structural induction for the nested `Xml` inductive, via strong induction
on `sizeOf`. -/
theorem Xml.inductionOn {P : Xml → Prop}
    (ht : ∀ s, P (.text s))
    (he : ∀ name ns attrs children,
      (∀ c ∈ children, P c) → P (.element name ns attrs children)) :
    ∀ x, P x := by
  have key : ∀ n (x : Xml), sizeOf x ≤ n → P x := by
    intro n
    induction n with
    | zero =>
      intro x hx
      cases x <;> simp_arith at hx
    | succ n ih =>
      intro x _
      cases x with
      | text s => exact ht s
      | element name ns attrs children =>
        refine he name ns attrs children (fun c hc => ih c ?_)
        have h1 : sizeOf c < sizeOf children := List.sizeOf_lt_of_mem hc
        have h2 : sizeOf children < sizeOf (Xml.element name ns attrs children) := by
          simp_arith
        omega
  exact fun x => key (sizeOf x) x le_rfl

theorem parse_pic_error_of_lacks (n : Xml) (h : picLacksImageRef n = true) :
    parse_pic n = .error Error.ImageNotFound := by
  unfold picLacksImageRef at h
  unfold parse_pic
  cases hf : n.descendants.find? (fun m =>
      m.isElement && m.tagName == "blip" && m.namespaceURI == some A_NAMESPACE) with
  | none => rfl
  | some blip =>
    simp only [hf] at h
    cases ho : (blip.attrNS RELS_NAMESPACE "embed").orElse
        (fun _ => blip.attr "r:embed") with
    | none => simp [ho]
    | some a => rw [ho] at h; simp at h

theorem childrenHaveBadPic_iff : ∀ l : List Xml,
    childrenHaveBadPic l = true ↔
      ∃ c ∈ l, c.isElement = true ∧ treeHasBadPic c = true
  | [] => by simp [childrenHaveBadPic]
  | c :: rest => by
    rw [childrenHaveBadPic, Bool.or_eq_true, Bool.and_eq_true,
      childrenHaveBadPic_iff rest]
    simp only [List.mem_cons]
    constructor
    · rintro (⟨h1, h2⟩ | ⟨d, hd, h1, h2⟩)
      · exact ⟨c, Or.inl rfl, h1, h2⟩
      · exact ⟨d, Or.inr hd, h1, h2⟩
    · rintro ⟨d, (rfl | hd), h1, h2⟩
      · exact Or.inl ⟨h1, h2⟩
      · exact Or.inr ⟨d, hd, h1, h2⟩

theorem parse_group_pic_err (x : Xml) (hx : x.tagName = "pic")
    (h : treeHasBadPic x = true) :
    parse_group x = .error Error.ImageNotFound := by
  cases x with
  | text s => simp [Xml.tagName] at hx
  | element name ns attrs children =>
    have hname : name = "pic" := hx
    subst hname
    rw [treeHasBadPic] at h
    by_cases hns : ns.getD "" ≠ P_NAMESPACE
    · rw [if_pos hns] at h; cases h
    · rw [if_neg hns, if_pos rfl] at h
      rw [parse_group, if_neg hns,
        if_neg (by decide : ¬("pic" = "sp")),
        if_neg (by decide : ¬("pic" = "graphicFrame")), if_pos rfl,
        parse_pic_error_of_lacks _ h]

theorem parseGroupChildren_err :
    ∀ (l : List Xml) (c : Xml), c ∈ l → c.isElement = true →
      (∃ e, parse_group c = .error e) →
      ∃ e, parseGroupChildren l = .error e
  | [], _, h, _, _ => absurd h (List.not_mem_nil _)
  | a :: rest, c, h, helem, herr => by
    rw [parseGroupChildren]
    cases hh : (if a.isElement then parse_group a else Except.ok []) with
    | error e => exact ⟨e, rfl⟩
    | ok v =>
      have hmem : c ∈ rest := by
        rcases List.mem_cons.mp h with rfl | hmem
        · rw [if_pos helem] at hh
          obtain ⟨e, he⟩ := herr
          rw [he] at hh
          cases hh
        · exact hmem
      obtain ⟨e, he⟩ := parseGroupChildren_err rest c hmem helem herr
      refine ⟨e, ?_⟩
      show (match parseGroupChildren rest with
        | .error e => Except.error e
        | .ok tail => Except.ok (v ++ tail)) = Except.error e
      rw [he]

/-- The group-shape traversal errors whenever it reaches a bad `pic`. -/
theorem parse_group_err_of_bad :
    ∀ x : Xml, treeHasBadPic x = true → ∃ e, parse_group x = .error e := by
  refine Xml.inductionOn (fun s h => by cases h) ?_
  intro name ns attrs children ih h
  rw [treeHasBadPic] at h
  by_cases hns : ns.getD "" ≠ P_NAMESPACE
  · rw [if_pos hns] at h; cases h
  · rw [if_neg hns] at h
    by_cases hpic : name = "pic"
    · exact ⟨Error.ImageNotFound,
        parse_group_pic_err (.element name ns attrs children) hpic (by
          rw [treeHasBadPic, if_neg hns, if_pos hpic]
          rw [if_pos hpic] at h
          exact h)⟩
    · rw [if_neg hpic] at h
      by_cases hgrp : name = "grpSp"
      · rw [if_pos hgrp] at h
        obtain ⟨c, hc, hce, hcb⟩ := (childrenHaveBadPic_iff children).mp h
        obtain ⟨e, he⟩ := parseGroupChildren_err children c hc hce (ih c hc hcb)
        subst hgrp
        rw [parse_group, if_neg hns,
          if_neg (by decide : ¬("grpSp" = "sp")),
          if_neg (by decide : ¬("grpSp" = "graphicFrame")),
          if_neg (by decide : ¬("grpSp" = "pic")), if_pos rfl]
        exact ⟨e, he⟩
      · rw [if_neg hgrp] at h
        cases h

theorem parseGroupChildren_imageNotFound :
    ∀ (pre : List Xml) (pic : Xml) (rest : List Xml),
      (∀ x ∈ pre, ∃ l', (if x.isElement then parse_group x else Except.ok []) =
        Except.ok l') →
      pic.isElement = true → pic.tagName = "pic" → treeHasBadPic pic = true →
      parseGroupChildren (pre ++ pic :: rest) = .error Error.ImageNotFound
  | [], pic, rest, _, helem, hname, hbad => by
    rw [List.nil_append, parseGroupChildren, if_pos helem,
      parse_group_pic_err pic hname hbad]
  | a :: pre', pic, rest, hpre, helem, hname, hbad => by
    rw [List.cons_append, parseGroupChildren]
    obtain ⟨l', hl'⟩ := hpre a (List.mem_cons_self a pre')
    rw [hl']
    show (match parseGroupChildren (pre' ++ pic :: rest) with
      | .error e => Except.error e
      | .ok tail => Except.ok (l' ++ tail)) = Except.error Error.ImageNotFound
    rw [parseGroupChildren_imageNotFound pre' pic rest
      (fun x hx => hpre x (List.mem_cons_of_mem a hx)) helem hname hbad]

/-- C8 amended: a shape tree containing a `pic` with no resolvable image
reference makes `parse_slide_xml` fail for the whole slide (no element list);
the error is `ImageNotFound` provided every shape-tree child before the
offending `pic` parses successfully (an earlier failing element reports its
own error instead). -/
theorem parse_slide_xml_bad_pic :
    (∀ (root c_sld sp_tree : Xml),
      root.descendants.find? (fun n =>
        n.tagName == "cSld" && n.namespaceURI == root.namespaceURI) = some c_sld →
      c_sld.children.find? (fun n =>
        n.tagName == "spTree" && n.namespaceURI == root.namespaceURI) = some sp_tree →
      childrenHaveBadPic sp_tree.children = true →
      ∃ e, parse_slide_xml root = .error e) ∧
    (∀ (root c_sld sp_tree : Xml) (pre : List Xml) (pic : Xml) (rest : List Xml),
      root.descendants.find? (fun n =>
        n.tagName == "cSld" && n.namespaceURI == root.namespaceURI) = some c_sld →
      c_sld.children.find? (fun n =>
        n.tagName == "spTree" && n.namespaceURI == root.namespaceURI) = some sp_tree →
      sp_tree.children = pre ++ pic :: rest →
      (∀ x ∈ pre, ∃ l', (if x.isElement then parse_group x else Except.ok []) =
        Except.ok l') →
      pic.isElement = true → pic.tagName = "pic" → treeHasBadPic pic = true →
      parse_slide_xml root = .error Error.ImageNotFound) := by
  constructor
  · intro root c_sld sp_tree h1 h2 h3
    obtain ⟨c, hc, hce, hcb⟩ := (childrenHaveBadPic_iff sp_tree.children).mp h3
    obtain ⟨e, he⟩ := parseGroupChildren_err sp_tree.children c hc hce
      (parse_group_err_of_bad c hcb)
    refine ⟨e, ?_⟩
    unfold parse_slide_xml
    simp only [h1, h2]
    exact he
  · intro root c_sld sp_tree pre pic rest h1 h2 hsplit hpre helem hname hbad
    unfold parse_slide_xml
    simp only [h1, h2, hsplit]
    exact parseGroupChildren_imageNotFound pre pic rest hpre helem hname hbad

/-- C8 counterexample: a shape tree holding a `txBody`-less `sp` *before* the
blip-less `pic` fails with `Error::Unknown` (the `sp`'s error), not with
`ImageNotFound` — so a slide containing such a `pic` does not always surface
`ImageNotFound`. -/
theorem parse_slide_xml_counterexample :
    treeHasBadPic badPicNode = true ∧
    parse_slide_xml slideDocSpThenBadPic = .error Error.Unknown ∧
    Error.Unknown ≠ Error.ImageNotFound :=
  ⟨rfl, rfl, by decide⟩

/-- Witness for the amended C8: a shape tree whose only child is the bad
`pic` fails with `ImageNotFound`. -/
theorem parse_slide_xml_bad_pic_witness :
    parse_slide_xml slideDocBadPicOnly = .error Error.ImageNotFound :=
  parse_slide_xml_bad_pic.2 slideDocBadPicOnly
    (.element "cSld" (some P_NAMESPACE) []
      [.element "spTree" (some P_NAMESPACE) [] [badPicNode]])
    (.element "spTree" (some P_NAMESPACE) [] [badPicNode])
    [] badPicNode [] rfl rfl rfl
    (fun x hx => absurd hx (List.not_mem_nil x)) rfl rfl rfl

/-! ## Claim C2 -/

theorem keyLe_iff (a b : Int × Int) :
    keyLe a b = true ↔ (a.1 < b.1 ∨ (a.1 = b.1 ∧ a.2 ≤ b.2)) := by
  simp [keyLe, Bool.or_eq_true, Bool.and_eq_true, decide_eq_true_eq, beq_iff_eq]

theorem keyLt_iff (a b : Int × Int) :
    keyLt a b = true ↔ (a.1 < b.1 ∨ (a.1 = b.1 ∧ a.2 < b.2)) := by
  simp [keyLt, Bool.or_eq_true, Bool.and_eq_true, decide_eq_true_eq, beq_iff_eq]

instance : IsTotal SlideElement elemLe :=
  ⟨fun a b => by unfold elemLe; rw [keyLe_iff, keyLe_iff]; omega⟩

instance : IsTrans SlideElement elemLe :=
  ⟨fun a b c hab hbc => by
    unfold elemLe at *
    rw [keyLe_iff] at hab hbc ⊢
    omega⟩

theorem stringFoldlAppend :
    ∀ (l : List String) (a b : String),
      l.foldl (· ++ ·) (a ++ b) = a ++ l.foldl (· ++ ·) b
  | [], _, _ => rfl
  | s :: l, a, b => by
    rw [List.foldl_cons, List.foldl_cons, String.append_assoc, stringFoldlAppend l]

theorem stringJoin_cons (s : String) (l : List String) :
    String.join (s :: l) = s ++ String.join l := by
  show (s :: l).foldl (· ++ ·) "" = s ++ l.foldl (· ++ ·) ""
  rw [List.foldl_cons, String.empty_append]
  conv_lhs => rw [← String.append_empty s]
  exact stringFoldlAppend l s ""

/-- The conversion fold equals the chunk decomposition. -/
theorem foldChunks_eq_chunkAux (env : RenderEnv) (s : Slide) :
    ∀ (l : List SlideElement) (init : String) (count : Nat),
      l.foldlM (fun (st : String × Nat) e =>
        (elementChunk env s st.2 e).map (fun p => (st.1 ++ p.1, p.2))) (init, count) =
      (chunkAux env s count l).map (fun p => (init ++ String.join p.1, p.2))
  | [], init, count => by
    simp [chunkAux, String.join, String.append_empty]
  | e :: rest, init, count => by
    rw [List.foldlM_cons, chunkAux]
    cases hc : elementChunk env s count e with
    | none => simp [hc]
    | some p =>
      simp only [hc, Option.map_some', Option.bind_eq_bind, Option.some_bind]
      rw [foldChunks_eq_chunkAux env s rest (init ++ p.1) p.2]
      cases hrest : chunkAux env s p.2 rest with
      | none => rfl
      | some q =>
        simp [stringJoin_cons, String.append_assoc]

/-- C2: (i) in the sorted element list an element with strictly smaller
`(y, x)` key occurs strictly earlier than one with a larger key — its markup
is emitted strictly before the other's; (ii) elements with equal positions
keep their relative input order (stability, as preservation of every
equal-key filter); (iii) the sorted list is a permutation of the input; and
(iv) `convert_to_md` is exactly the header followed by the per-element chunks
of the sorted list, concatenated in sorted order. -/
theorem convert_to_md_ordering :
    (∀ (l : List SlideElement) (i j : Nat) (a b : SlideElement),
      (sortElements l)[i]? = some a → (sortElements l)[j]? = some b →
      keyLt (posKey a) (posKey b) = true → i < j) ∧
    (∀ (l : List SlideElement) (k : Int × Int),
      (sortElements l).filter (fun e => posKey e == k) =
        l.filter (fun e => posKey e == k)) ∧
    (∀ l : List SlideElement, List.Perm (sortElements l) l) ∧
    (∀ (env : RenderEnv) (s : Slide),
      Slide.convert_to_md env s =
        (chunkAux env s 0 (sortElements s.elements)).map
          (fun p => slideHeader s ++ String.join p.1)) := by
  refine ⟨?_, ?_, fun l => List.perm_insertionSort elemLe l, ?_⟩
  · intro l i j a b ha hb hlt
    have hs : (sortElements l).Pairwise elemLe := List.sorted_insertionSort elemLe l
    rcases Nat.lt_trichotomy i j with h | h | h
    · exact h
    · exfalso
      subst h
      rw [ha] at hb
      injection hb with hab
      subst hab
      have := (keyLt_iff _ _).mp hlt
      omega
    · exfalso
      obtain ⟨hi, hia⟩ := List.getElem?_eq_some.mp ha
      obtain ⟨hj, hjb⟩ := List.getElem?_eq_some.mp hb
      have hba := List.pairwise_iff_getElem.mp hs j i hj hi h
      rw [hia, hjb] at hba
      unfold elemLe at hba
      rw [keyLe_iff] at hba
      have := (keyLt_iff _ _).mp hlt
      omega
  · intro l k
    set p : SlideElement → Bool := fun e => posKey e == k with hp
    have hpw : (l.filter p).Pairwise elemLe := by
      refine List.pairwise_of_forall_mem_list (fun a ha b hb => ?_)
      have hak : posKey a = k := by simpa [hp] using List.of_mem_filter ha
      have hbk : posKey b = k := by simpa [hp] using List.of_mem_filter hb
      unfold elemLe
      rw [keyLe_iff, hak, hbk]
      omega
    have hsub : List.Sublist (l.filter p) (sortElements l) :=
      List.sublist_insertionSort hpw (List.filter_sublist l)
    have hpp : (fun a => p a && p a) = p := by
      funext a
      cases hpa : p a <;> simp [hpa]
    have hsub2 : List.Sublist (l.filter p) ((sortElements l).filter p) := by
      have h1 := hsub.filter p
      rwa [List.filter_filter, hpp] at h1
    have hlen : (l.filter p).length = ((sortElements l).filter p).length :=
      (((List.perm_insertionSort elemLe l).filter p).length_eq).symm
    exact (hsub2.eq_of_length hlen).symm
  · intro env s
    show ((sortElements s.elements).foldlM (fun (st : String × Nat) e =>
      (elementChunk env s st.2 e).map (fun p => (st.1 ++ p.1, p.2)))
      (slideHeader s, 0)).bind (fun st => some st.1) = _
    rw [foldChunks_eq_chunkAux env s (sortElements s.elements) (slideHeader s) 0]
    cases hc : chunkAux env s 0 (sortElements s.elements) with
    | none => rfl
    | some q => rfl

/-- Witness for C2: a two-element list in reversed reading order, plus the
output decomposition at a concrete slide. -/
theorem convert_to_md_ordering_witness :
    (0 : Nat) < 1 ∧
    Slide.convert_to_md envId slideManually =
      (chunkAux envId slideManually 0 (sortElements slideManually.elements)).map
        (fun p => slideHeader slideManually ++ String.join p.1) :=
  ⟨convert_to_md_ordering.1 [SlideElement.Unknown, .Text ⟨[]⟩ ⟨0, 1⟩] 0 1
      SlideElement.Unknown (.Text ⟨[]⟩ ⟨0, 1⟩) rfl rfl (by decide),
   convert_to_md_ordering.2.2.2 envId slideManually⟩

end PptxParser
